import Mathlib

/-! Verification of the SD-card flashing and filesystem-repair engine
(`flash-sdcard.py`).  Byte streams are modelled as `List Nat`, external
commands as oracle inputs, and the copy / verification loops as
fuel-indexed step functions translated line by line from the source. -/

namespace FlashSdcard

/-- Copy block size: `block_size = 8 * 1024` (flash-sdcard.py:109). -/
def blockSize : Nat := 8 * 1024

/-- Verification chunk size: `chunk_size = 1024 * 1024` (flash-sdcard.py:196). -/
def chunkSize : Nat := 1024 * 1024

/-- Progress-bar width: `terminal_width // 3`, floored at 30 columns
(flash-sdcard.py:152-155). -/
def progressWidthOf (terminalWidth : Nat) : Nat :=
  let w := terminalWidth / 3
  if w < 30 then 30 else w

/-- Displayed percentage: `percent = (bytes_written * 100) // image_size`,
then `if percent > 100: percent = 100` (flash-sdcard.py:135-137). -/
def displayPercent (bytesWritten imageSize : Nat) : Nat :=
  let percent := (bytesWritten * 100) / imageSize
  if percent > 100 then 100 else percent

/-- State of the copy loop of `flash_image_with_progress`
(flash-sdcard.py:108-176).  `srcRem` is the unread tail of the image
stream, `blocks` the sequence of blocks written to the device so far,
`bytesWritten` and `blocksProcessed` the running counters, and
`progressWidth` / `speedMbs` model the Python locals `progress_width` and
`speed_mbs`, which are assigned only inside the progress-sample branch
(`none` = not yet assigned, i.e. reading them raises `NameError`). -/
structure CopyState where
  srcRem : List Nat
  blocks : List (List Nat)
  bytesWritten : Nat
  blocksProcessed : Nat
  progressWidth : Option Nat
  speedMbs : Option Nat
deriving DecidableEq

/-- Bytes returned by one `src.read(read_size)` call
(flash-sdcard.py:114-116): `read_size = min(block_size, remaining)`; the
result is a prefix of the stream of size at most `read_size`.  The
`sched` oracle models transient short reads: its head entry `k` caps the
read at `max 1 k` bytes — a read returns at least one byte unless the
stream is at end-of-stream (then it is empty and the loop `break`s) — and
a missing entry means a full read. -/
def copyAmt (imageSize : Nat) (s : CopyState) (sched : List Nat) : Nat :=
  let remaining := imageSize - s.bytesWritten
  let readSize := min blockSize remaining
  min readSize (min s.srcRem.length (max 1 (sched.headD readSize)))

/-- The state after one loop iteration that wrote a block
(flash-sdcard.py:121-172): consume the read bytes, append the block,
advance the counters, and — exactly when the progress branch fires —
assign `progress_width` and `speed_mbs`.  The `samples` oracle models
the wall-clock test `current_time - last_update >= 0.2`: head entry
`some v` means the branch fires and displays speed `v` (time-derived
quantities are free inputs here); `none` or a missing entry means it
does not fire.  The periodic `fsync` (flash-sdcard.py:126-128) does not
change the byte stream and is not tracked beyond `blocksProcessed`. -/
def copyStepState (imageSize terminalWidth : Nat) (s : CopyState)
    (sched : List Nat) (samples : List (Option Nat)) : CopyState :=
  let amt := copyAmt imageSize s sched
  let block := s.srcRem.take amt
  let sampled := samples.headD none
  { srcRem := s.srcRem.drop amt,
    blocks := s.blocks ++ [block],
    bytesWritten := s.bytesWritten + block.length,
    blocksProcessed := s.blocksProcessed + 1,
    progressWidth := match sampled with
      | some _ => some (progressWidthOf terminalWidth)
      | none => s.progressWidth,
    speedMbs := match sampled with
      | some v => some v
      | none => s.speedMbs }

/-- The copy loop of `flash_image_with_progress` (flash-sdcard.py:112-172):
`while bytes_written < image_size`, read a block, `break` if it is empty,
otherwise write it and continue.  Structurally recursing on `fuel`: the
loop makes strictly positive byte progress every iteration, so any
`fuel > imageSize` is exhaustive. -/
def copyGo (imageSize terminalWidth : Nat) :
    Nat → CopyState → List Nat → List (Option Nat) → CopyState
  | 0, s, _, _ => s
  | fuel + 1, s, sched, samples =>
    if s.bytesWritten < imageSize then
      if (s.srcRem.take (copyAmt imageSize s sched)).isEmpty then s
      else
        copyGo imageSize terminalWidth fuel
          (copyStepState imageSize terminalWidth s sched samples)
          sched.tail samples.tail
    else s

/-- Initial copy state: `bytes_written = 0`, nothing written, and the
sample-branch locals unassigned (flash-sdcard.py:96, 109-110). -/
def initCopyState (src : List Nat) : CopyState :=
  { srcRem := src, blocks := [], bytesWritten := 0, blocksProcessed := 0,
    progressWidth := none, speedMbs := none }

/-- The whole copy loop, run to completion. -/
def flashCopy (imageSize terminalWidth : Nat) (src : List Nat)
    (sched : List Nat) (samples : List (Option Nat)) : CopyState :=
  copyGo imageSize terminalWidth (imageSize + 1) (initCopyState src) sched samples

/-- Outcome of `flash_image_with_progress` after the loop: either the
final 100% frame is rendered, or reading the unassigned locals raises
`NameError` (flash-sdcard.py:183-184), which propagates to the
top-level handler (flash-sdcard.py:433-435) and exits non-zero. -/
inductive FlashOutcome
  | success (finalState : CopyState)
  | nameError (finalState : CopyState)
deriving DecidableEq

/-- The final progress frame (flash-sdcard.py:182-184): it reads
`progress_width` and `speed_mbs`; if either was never assigned the
statement raises `NameError` instead of printing. -/
def renderFinalFrame (s : CopyState) : FlashOutcome :=
  match s.progressWidth, s.speedMbs with
  | some _, some _ => FlashOutcome.success s
  | _, _ => FlashOutcome.nameError s

/-- Copy phase of `flash_image_with_progress` including the final frame. -/
def flashImage (imageSize terminalWidth : Nat) (src : List Nat)
    (sched : List Nat) (samples : List (Option Nat)) : FlashOutcome :=
  renderFinalFrame (flashCopy imageSize terminalWidth src sched samples)

/-- State of the verification loop (flash-sdcard.py:195-204): unread
tails of the image and device streams, `bytes_compared`, and the number
of chunk comparisons performed so far. -/
structure VerifyState where
  imgRem : List Nat
  devRem : List Nat
  bytesCompared : Nat
  comparisons : Nat
deriving DecidableEq

/-- One iteration of the verification loop (flash-sdcard.py:198-204):
while `bytes_compared < image_size`, read `chunk_size` bytes from the
image, read that many bytes from the device, fail on inequality
(`Sum.inr (false, _)`), otherwise advance.  Loop exit reports success
(`Sum.inr (true, _)`).  Reads of a regular file / block device return
the requested count, short only at end of stream (`List.take`). -/
def verifyStep (imageSize : Nat) (s : VerifyState) : VerifyState ⊕ (Bool × Nat) :=
  if s.bytesCompared < imageSize then
    let srcChunk := s.imgRem.take chunkSize
    let dstChunk := s.devRem.take srcChunk.length
    if srcChunk = dstChunk then
      Sum.inl { imgRem := s.imgRem.drop srcChunk.length,
                devRem := s.devRem.drop srcChunk.length,
                bytesCompared := s.bytesCompared + srcChunk.length,
                comparisons := s.comparisons + 1 }
    else Sum.inr (false, s.comparisons + 1)
  else Sum.inr (true, s.comparisons)

/-- Run the verification loop for at most `fuel` iterations; `none`
means the loop has not terminated within `fuel` iterations. -/
def verifyRun (imageSize : Nat) : Nat → VerifyState → Option (Bool × Nat)
  | 0, _ => none
  | fuel + 1, s =>
    match verifyStep imageSize s with
    | Sum.inr r => some r
    | Sum.inl s' => verifyRun imageSize fuel s'

/-- The verification pass over `image_size` bytes.  One iteration
compares at least one byte whenever the image stream is non-empty, so
`imageSize + 1` iterations are exhaustive for a well-formed image. -/
def verifyImage (img dev : List Nat) (imageSize : Nat) : Option (Bool × Nat) :=
  verifyRun imageSize (imageSize + 1) ⟨img, dev, 0, 0⟩

/-- Chunk-level comparison: chunk `k` of the comparison reads image
bytes `[k * chunkSize, (k+1) * chunkSize)` and the same number of device
bytes at the same offset; `true` iff they are byte-equal (a short device
read yields lists of different lengths, hence `false`). -/
def chunkMatches (img dev : List Nat) (k : Nat) : Bool :=
  let srcChunk := (img.drop (k * chunkSize)).take chunkSize
  let dstChunk := (dev.drop (k * chunkSize)).take srcChunk.length
  decide (srcChunk = dstChunk)

/-- Number of chunks needed to cover `m` bytes in `chunkSize` pieces. -/
def numChunks (m : Nat) : Nat := (m + chunkSize - 1) / chunkSize

/-- Partition-table kinds tried by the repair path, in order
(flash-sdcard.py:245, 250). -/
inductive TableKind
  | gpt
  | mbr
deriving DecidableEq

/-- External `parted` invocations of the partition-table phase
(flash-sdcard.py:238, 245, 250). -/
inductive TableCmd
  | probeTable
  | mkLabelGpt
  | mkLabelMbr
deriving DecidableEq

/-- Result of the partition-table check (flash-sdcard.py:236-257):
whether the repair session may continue, which label (if any) was
created, and the `parted` commands attempted, in order. -/
structure InspectOutcome where
  canContinue : Bool
  created : Option TableKind
  cmds : List TableCmd
deriving DecidableEq

/-- Partition-table check and forced recreation, translated from
flash-sdcard.py:236-257.  `probeOk` is the exit status of
`parted -s base print`; `gptOk` / `mbrOk` those of
`parted -s base mklabel gpt` / `mklabel msdos`. -/
def inspectPartitionTable (force probeOk gptOk mbrOk : Bool) : InspectOutcome :=
  if probeOk then
    { canContinue := true, created := none, cmds := [TableCmd.probeTable] }
  else if force then
    if gptOk then
      { canContinue := true, created := some TableKind.gpt,
        cmds := [TableCmd.probeTable, TableCmd.mkLabelGpt] }
    else if mbrOk then
      { canContinue := true, created := some TableKind.mbr,
        cmds := [TableCmd.probeTable, TableCmd.mkLabelGpt, TableCmd.mkLabelMbr] }
    else
      { canContinue := false, created := none,
        cmds := [TableCmd.probeTable, TableCmd.mkLabelGpt, TableCmd.mkLabelMbr] }
  else
    { canContinue := false, created := none, cmds := [TableCmd.probeTable] }

/-- `device_path.rstrip('0123456789')`: remove every trailing decimal
digit (flash-sdcard.py:233). -/
def rstripDigits (s : String) : String :=
  String.mk ((s.toList.reverse.dropWhile Char.isDigit).reverse)

/-- Base-device extraction (flash-sdcard.py:230-233): if the last
character of the path is a digit, strip all trailing digits, else keep
the path.  (An empty path is rejected by `main` before this point.) -/
def baseDeviceOf (devicePath : String) : String :=
  match devicePath.toList.getLast? with
  | some c => if c.isDigit then rstripDigits devicePath else devicePath
  | none => devicePath

/-- Helper for `Path(p).name`: characters after the last `/`. -/
def lastComponentAux : List Char → List Char → List Char
  | cur, [] => cur
  | cur, c :: rest =>
    if c = '/' then lastComponentAux [] rest
    else lastComponentAux (cur ++ [c]) rest

/-- `Path(p).name` (flash-sdcard.py:269, 275): the final path component. -/
def pathBaseName (p : String) : String := String.mk (lastComponentAux [] p.toList)

/-- Does `hay` begin with `needle`? -/
def charListHasPre : List Char → List Char → Bool
  | [], _ => true
  | _ :: _, [] => false
  | a :: as, b :: bs => a == b && charListHasPre as bs

/-- Python's substring test `needle in hay`. -/
def charListHasSub (needle : List Char) : List Char → Bool
  | [] => needle.isEmpty
  | c :: rest => charListHasPre needle (c :: rest) || charListHasSub needle rest

/-- `'mmcblk' in base_device or 'nvme' in base_device`
(flash-sdcard.py:267): the numbered naming family. -/
def isNumberedFamily (devicePath : String) : Bool :=
  charListHasSub "mmcblk".toList devicePath.toList
    || charListHasSub "nvme".toList devicePath.toList

/-- Glob `<pre>[0-9]*`: the name is `pre`, then one decimal digit, then
anything (flash-sdcard.py:270, 276). -/
def globDigitStar : List Char → List Char → Bool
  | [], [] => false
  | [], c :: _ => c.isDigit
  | _ :: _, [] => false
  | p :: ps, c :: cs => p == c && globDigitStar ps cs

/-- Child-partition selection of the enumerator (flash-sdcard.py:265-278):
for `mmcblk`/`nvme` base devices the glob is `<base_name>p[0-9]*`, for
all others `<base_name>[0-9]*`, where `base_name = Path(base_device).name`. -/
def partitionNodeMatches (baseDevice nodeName : String) : Bool :=
  let baseName := pathBaseName baseDevice
  if isNumberedFamily baseDevice then
    globDigitStar (baseName.toList ++ ['p']) nodeName.toList
  else
    globDigitStar baseName.toList nodeName.toList

/-- Modelled from the spec sentence of §4.6 backing claim C1 ("For
numbered-family devices, match nodes named `<base><digit...>` directly;
for lettered-family devices, match `<base>p<digit...>`"), for comparison
with `partitionNodeMatches`, which is translated from the source. -/
def partitionNodeMatchesClaim (baseDevice nodeName : String) : Bool :=
  let baseName := pathBaseName baseDevice
  if isNumberedFamily baseDevice then
    globDigitStar baseName.toList nodeName.toList
  else
    globDigitStar (baseName.toList ++ ['p']) nodeName.toList

/-- Per-partition repair actions of the dispatcher
(flash-sdcard.py:300-316). -/
inductive RepairAction
  | runE2fsck (partition : String)
  | runDosfsck (partition : String)
  | runNtfsfix (partition : String)
  | warnNoNtfsfix (partition : String)
  | skipNoTool (partition : String) (fstype : String)
deriving DecidableEq

/-- Dispatch on the detected filesystem type string
(flash-sdcard.py:300-316): extN types run `e2fsck -f -y`, FAT types run
`dosfsck -a -v`, `ntfs` runs `ntfsfix` when available and warns
otherwise, anything else is logged and skipped. -/
def dispatchByType (ntfsfixAvailable : Bool) (partition fstype : String) :
    RepairAction :=
  if fstype = "ext2" ∨ fstype = "ext3" ∨ fstype = "ext4" then
    RepairAction.runE2fsck partition
  else if fstype = "vfat" ∨ fstype = "fat32" ∨ fstype = "fat16" then
    RepairAction.runDosfsck partition
  else if fstype = "ntfs" then
    if ntfsfixAvailable then RepairAction.runNtfsfix partition
    else RepairAction.warnNoNtfsfix partition
  else
    RepairAction.skipNoTool partition fstype

/-- Type detection plus dispatch for one partition
(flash-sdcard.py:292-316): `blkid -o value -s TYPE` yields `some t` on
success (stripped stdout) and `none` on failure, in which case the type
is the string `unknown`. -/
def dispatchPartition (ntfsfixAvailable : Bool)
    (probeType : String → Option String) (partition : String) : RepairAction :=
  dispatchByType ntfsfixAvailable partition ((probeType partition).getD "unknown")

/-- The per-partition repair loop (flash-sdcard.py:289-322): visits the
partitions in list order, dispatches each, and returns `true` (the
function falls through to `return True`).  `toolExit` is the exit status
of each external tool run; every run uses `check=False`, so the statuses
are never consulted. -/
def repairDispatchLoop (ntfsfixAvailable : Bool)
    (probeType : String → Option String) (toolExit : String → Int) :
    List String → List RepairAction × Bool
  | [] => ([], true)
  | p :: rest =>
    let act := dispatchPartition ntfsfixAvailable probeType p
    let result := repairDispatchLoop ntfsfixAvailable probeType toolExit rest
    (act :: result.1, result.2)

/-- Helper: the success flag returned by the repair loop is always `true`
(flash-sdcard.py:322 is reached regardless of any tool's exit status). -/
theorem repairDispatchLoop_ok (a : Bool) (probe : String → Option String)
    (ec : String → Int) (parts : List String) :
    (repairDispatchLoop a probe ec parts).2 = true := by
  induction parts with
  | nil => rfl
  | cons p rest ih => simpa [repairDispatchLoop] using ih

/-- Helper: the dispatched actions are the per-partition dispatch results
in list order. -/
theorem repairDispatchLoop_acts (a : Bool) (probe : String → Option String)
    (ec : String → Int) (parts : List String) :
    (repairDispatchLoop a probe ec parts).1
      = parts.map (dispatchPartition a probe) := by
  induction parts with
  | nil => rfl
  | cons p rest ih => simp [repairDispatchLoop, ih]

/-- Helper: the repair loop's result does not depend on the tools' exit
statuses (`check=False` everywhere). -/
theorem repairDispatchLoop_exit_indep (a : Bool) (probe : String → Option String)
    (e1 e2 : String → Int) (parts : List String) :
    repairDispatchLoop a probe e1 parts = repairDispatchLoop a probe e2 parts := by
  induction parts with
  | nil => rfl
  | cons p rest ih => simp [repairDispatchLoop, ih]

/-- Helper: `globDigitStar pre name` holds exactly when `name` is `pre`
followed by a decimal digit followed by anything. -/
theorem globDigitStar_iff : ∀ pre name : List Char,
    globDigitStar pre name = true ↔
      ∃ c rest, name = pre ++ c :: rest ∧ c.isDigit = true := by
  intro pre
  induction pre with
  | nil =>
    intro name
    cases name with
    | nil => simp [globDigitStar]
    | cons c cs =>
      simp only [globDigitStar, List.nil_append]
      constructor
      · intro h; exact ⟨c, cs, rfl, h⟩
      · rintro ⟨c2, rest, heq, hd⟩
        injection heq with h1 h2
        exact h1 ▸ hd
  | cons p ps ih =>
    intro name
    cases name with
    | nil =>
      simp [globDigitStar]
    | cons c cs =>
      simp only [globDigitStar, Bool.and_eq_true, beq_iff_eq, ih cs, List.cons_append]
      constructor
      · rintro ⟨hpc, c2, rest, heq, hd⟩
        exact ⟨c2, rest, by rw [hpc, heq], hd⟩
      · rintro ⟨c2, rest, heq, hd⟩
        injection heq with h1 h2
        exact ⟨h1.symm, c2, rest, h2, hd⟩

/-- C1 (counterexample): the spec's naming rule, as stated, disagrees with
the source for both families: for the numbered-family base `/dev/mmcblk0`
the code selects `mmcblk0p1` (the spec's rule rejects it), and for the
lettered-family base `/dev/sdb` the code selects `sdb1` while the spec's
rule demands `sdbp1`. -/
theorem partition_naming_claim_counterexample :
    partitionNodeMatchesClaim "/dev/mmcblk0" "mmcblk0p1" = false
  ∧ partitionNodeMatches "/dev/mmcblk0" "mmcblk0p1" = true
  ∧ partitionNodeMatchesClaim "/dev/mmcblk0" "mmcblk01" = true
  ∧ partitionNodeMatches "/dev/mmcblk0" "mmcblk01" = false
  ∧ partitionNodeMatchesClaim "/dev/sdb" "sdb1" = false
  ∧ partitionNodeMatches "/dev/sdb" "sdb1" = true := by decide

/-- C1 (amended): the partition enumerator selects child nodes by naming
family as follows: for numbered-family base devices (paths containing
`mmcblk` or `nvme`) it matches nodes named `<base>p<digit...>`, and for
lettered-family base devices (all others) it matches nodes named
`<base><digit...>` directly (with `<base>` the final path component and
the glob permitting arbitrary characters after the first digit). -/
theorem partition_naming_families (baseDevice nodeName : String) :
    partitionNodeMatches baseDevice nodeName = true ↔
      ((isNumberedFamily baseDevice = true
          ∧ ∃ c rest, nodeName.toList
              = (pathBaseName baseDevice).toList ++ 'p' :: c :: rest
            ∧ c.isDigit = true)
        ∨ (isNumberedFamily baseDevice = false
          ∧ ∃ c rest, nodeName.toList
              = (pathBaseName baseDevice).toList ++ c :: rest
            ∧ c.isDigit = true)) := by
  unfold partitionNodeMatches
  cases hf : isNumberedFamily baseDevice with
  | true => simp [hf, globDigitStar_iff, List.append_assoc]
  | false => simp [hf, globDigitStar_iff]

/-- C3: when the partition-table probe fails, the inspector warns and
stops (attempting no creation) unless `force` is set; when forced it
tries GPT first, falls back to MBR exactly when GPT fails, continues
when either creation succeeds, and fails fatally exactly when both fail
(flash-sdcard.py:236-257). -/
theorem table_inspector_spec :
    ∀ gptOk mbrOk : Bool,
      (inspectPartitionTable false false gptOk mbrOk).canContinue = false
    ∧ TableCmd.mkLabelGpt ∉ (inspectPartitionTable false false gptOk mbrOk).cmds
    ∧ TableCmd.mkLabelMbr ∉ (inspectPartitionTable false false gptOk mbrOk).cmds
    ∧ (inspectPartitionTable true false gptOk mbrOk).cmds.head? = some TableCmd.probeTable
    ∧ TableCmd.mkLabelGpt ∈ (inspectPartitionTable true false gptOk mbrOk).cmds
    ∧ (TableCmd.mkLabelMbr ∈ (inspectPartitionTable true false gptOk mbrOk).cmds
        ↔ gptOk = false)
    ∧ ((inspectPartitionTable true false gptOk mbrOk).canContinue = true
        ↔ (gptOk = true ∨ mbrOk = true))
    ∧ ((inspectPartitionTable true false gptOk mbrOk).canContinue = false
        ↔ (gptOk = false ∧ mbrOk = false))
    ∧ (inspectPartitionTable true false false true).created = some TableKind.mbr
    ∧ (inspectPartitionTable true false true mbrOk).created = some TableKind.gpt := by
  decide

/-- C5: at every progress sample the displayed percentage is
`floor(bytes_written * 100 / image_size)` clamped to 100; it is
monotonically non-decreasing in the byte counter and, for
`bytes_written ≤ image_size`, equals 100 exactly when
`bytes_written = image_size` (flash-sdcard.py:135-137). -/
theorem progress_percent_spec (imageSize : Nat) (hpos : 0 < imageSize) :
    (∀ b, displayPercent b imageSize = min ((b * 100) / imageSize) 100)
  ∧ (∀ b1 b2, b1 ≤ b2 → displayPercent b1 imageSize ≤ displayPercent b2 imageSize)
  ∧ (∀ b, b ≤ imageSize → (displayPercent b imageSize = 100 ↔ b = imageSize)) := by
  refine ⟨?_, ?_, ?_⟩
  · intro b
    simp only [displayPercent, Nat.min_def]
    split <;> split <;> omega
  · intro b1 b2 h
    have hd : b1 * 100 / imageSize ≤ b2 * 100 / imageSize :=
      Nat.div_le_div_right (Nat.mul_le_mul_right _ h)
    simp only [displayPercent]
    split <;> split <;> omega
  · intro b hb
    constructor
    · intro h
      simp only [displayPercent] at h
      have h100 : 100 ≤ b * 100 / imageSize := by
        split at h <;> omega
      rw [Nat.le_div_iff_mul_le hpos] at h100
      have hle : imageSize ≤ b :=
        Nat.le_of_mul_le_mul_left (by omega : 100 * imageSize ≤ 100 * b) (by norm_num)
      omega
    · intro h
      subst h
      simp only [displayPercent]
      rw [Nat.mul_div_cancel_left 100 hpos]
      simp

/-- Witness for `progress_percent_spec` at `image_size = 4`. -/
theorem progress_percent_spec_witness :
    displayPercent 2 4 ≤ displayPercent 3 4
  ∧ (displayPercent 4 4 = 100 ↔ 4 = 4) :=
  ⟨(progress_percent_spec 4 (by decide)).2.1 2 3 (by decide),
   (progress_percent_spec 4 (by decide)).2.2 4 (by decide)⟩

/-- C6 (code behavior at the failing input): the base-device derivation
strips every trailing digit, so the numbered-family whole-disk path
`/dev/mmcblk0` maps to the nonexistent node `/dev/mmcblk` instead of
itself, and the partition path `/dev/mmcblk0p1` maps to `/dev/mmcblk0p`
instead of its parent `/dev/mmcblk0`; consequently the enumerator run on
the derived base no longer matches the very partition naming scheme the
same function uses (flash-sdcard.py:230-233 versus 267-270). -/
theorem base_device_strips_device_number :
    baseDeviceOf "/dev/mmcblk0" = "/dev/mmcblk"
  ∧ baseDeviceOf "/dev/mmcblk0p1" = "/dev/mmcblk0p"
  ∧ partitionNodeMatches (baseDeviceOf "/dev/mmcblk0") "mmcblk0p1" = false
  ∧ partitionNodeMatches "/dev/mmcblk0" "mmcblk0p1" = true
  ∧ baseDeviceOf "/dev/sdb1" = "/dev/sdb" := by decide

/-- C7: the dispatcher visits partitions in enumeration order, dispatches
by detected filesystem type (extN checker for ext2/3/4, FAT checker for
vfat/fat32/fat16, NTFS fixer for ntfs when present and a warning
otherwise, a logged skip for anything else or unreadable), never
escalates a tool's exit status, and the loop reports success regardless
of every individual tool's outcome (flash-sdcard.py:289-322). -/
theorem repair_dispatch_spec (a : Bool) (probe : String → Option String)
    (ec : String → Int) (parts : List String) (p t : String) :
    (repairDispatchLoop a probe ec parts).2 = true
  ∧ (repairDispatchLoop a probe ec parts).1 = parts.map (dispatchPartition a probe)
  ∧ (∀ ec2, repairDispatchLoop a probe ec parts = repairDispatchLoop a probe ec2 parts)
  ∧ dispatchPartition a probe p = dispatchByType a p ((probe p).getD "unknown")
  ∧ dispatchByType a p "ext2" = RepairAction.runE2fsck p
  ∧ dispatchByType a p "ext3" = RepairAction.runE2fsck p
  ∧ dispatchByType a p "ext4" = RepairAction.runE2fsck p
  ∧ dispatchByType a p "vfat" = RepairAction.runDosfsck p
  ∧ dispatchByType a p "fat32" = RepairAction.runDosfsck p
  ∧ dispatchByType a p "fat16" = RepairAction.runDosfsck p
  ∧ dispatchByType true p "ntfs" = RepairAction.runNtfsfix p
  ∧ dispatchByType false p "ntfs" = RepairAction.warnNoNtfsfix p
  ∧ (t ∉ (["ext2", "ext3", "ext4", "vfat", "fat32", "fat16", "ntfs"] : List String)
      → dispatchByType a p t = RepairAction.skipNoTool p t) := by
  refine ⟨repairDispatchLoop_ok a probe ec parts,
    repairDispatchLoop_acts a probe ec parts,
    fun ec2 => repairDispatchLoop_exit_indep a probe ec ec2 parts,
    rfl, ?_, ?_, ?_, ?_, ?_, ?_, ?_, ?_, ?_⟩
  · simp [dispatchByType]
  · simp [dispatchByType]
  · simp [dispatchByType]
  · simp [dispatchByType]
  · simp [dispatchByType]
  · simp [dispatchByType]
  · simp [dispatchByType]
  · simp [dispatchByType]
  · intro h
    simp only [List.mem_cons, List.mem_singleton, not_or] at h
    obtain ⟨h1, h2, h3, h4, h5, h6, h7⟩ := h
    simp [dispatchByType, h1, h2, h3, h4, h5, h6, h7]

/-- Witness for `repair_dispatch_spec`: the spec's repair-only scenario
(ext4, vfat, unknown) plus a skipped foreign type. -/
theorem repair_dispatch_spec_witness :
    (repairDispatchLoop false
        (fun p => if p = "/dev/sdb1" then some "ext4"
          else if p = "/dev/sdb2" then some "vfat" else none)
        (fun _ => 1) ["/dev/sdb1", "/dev/sdb2", "/dev/sdb3"]).2 = true
  ∧ dispatchByType false "/dev/sdb3" "squashfs"
      = RepairAction.skipNoTool "/dev/sdb3" "squashfs" :=
  ⟨(repair_dispatch_spec false
      (fun p => if p = "/dev/sdb1" then some "ext4"
        else if p = "/dev/sdb2" then some "vfat" else none)
      (fun _ => 1) ["/dev/sdb1", "/dev/sdb2", "/dev/sdb3"] "x" "y").1,
   (repair_dispatch_spec false (fun _ => none) (fun _ => 1) [] "/dev/sdb3"
      "squashfs").2.2.2.2.2.2.2.2.2.2.2.2 (by decide)⟩

/-- Helper: one read never exceeds the bytes remaining to be written. -/
theorem copyAmt_le (imageSize : Nat) (s : CopyState) (sched : List Nat) :
    copyAmt imageSize s sched ≤ imageSize - s.bytesWritten :=
  le_trans (Nat.min_le_left _ _) (Nat.min_le_right _ _)

/-- Helper: inside the loop, the block read is empty only at
end-of-stream. -/
theorem copy_take_empty (imageSize : Nat) (s : CopyState) (sched : List Nat)
    (hlt : s.bytesWritten < imageSize)
    (hemp : (s.srcRem.take (copyAmt imageSize s sched)).isEmpty = true) :
    s.srcRem = [] := by
  rw [List.isEmpty_iff] at hemp
  rcases List.take_eq_nil_iff.mp hemp with h | h
  · unfold copyAmt at h
    rcases Nat.min_eq_zero_iff.mp h with h0 | h0
    · exfalso
      rcases Nat.min_eq_zero_iff.mp h0 with hb | hr
      · exact absurd hb (by decide)
      · omega
    · rcases Nat.min_eq_zero_iff.mp h0 with hl | hm
      · exact List.length_eq_zero.mp hl
      · exfalso
        have := Nat.le_max_left 1 (sched.headD (min blockSize (imageSize - s.bytesWritten)))
        omega
  · exact h

/-- Helper: a non-empty block holds at least one byte. -/
theorem copy_block_pos (imageSize : Nat) (s : CopyState) (sched : List Nat)
    (hemp : ¬ (s.srcRem.take (copyAmt imageSize s sched)).isEmpty = true) :
    1 ≤ (s.srcRem.take (copyAmt imageSize s sched)).length := by
  cases hq : s.srcRem.take (copyAmt imageSize s sched) with
  | nil => rw [hq] at hemp; simp at hemp
  | cons a l => simp

/-- Helper invariant of the copy loop: `bytes_written` equals the total
size of the blocks written, the written bytes followed by the unread
stream reconstruct the initial stream, and `bytes_written` never exceeds
`image_size`. -/
theorem copyGo_inv (imageSize terminalWidth : Nat) :
    ∀ (fuel : Nat) (s : CopyState) (sched : List Nat) (samples : List (Option Nat)),
      s.bytesWritten = s.blocks.flatten.length →
      s.bytesWritten ≤ imageSize →
      ((copyGo imageSize terminalWidth fuel s sched samples).bytesWritten
          = (copyGo imageSize terminalWidth fuel s sched samples).blocks.flatten.length
        ∧ (copyGo imageSize terminalWidth fuel s sched samples).blocks.flatten
            ++ (copyGo imageSize terminalWidth fuel s sched samples).srcRem
          = s.blocks.flatten ++ s.srcRem
        ∧ (copyGo imageSize terminalWidth fuel s sched samples).bytesWritten ≤ imageSize) := by
  intro fuel
  induction fuel with
  | zero => intro s sched samples h1 h2; exact ⟨h1, rfl, h2⟩
  | succ fuel ih =>
    intro s sched samples h1 h2
    rw [copyGo]
    by_cases hlt : s.bytesWritten < imageSize
    · rw [if_pos hlt]
      by_cases hemp : (s.srcRem.take (copyAmt imageSize s sched)).isEmpty
      · rw [if_pos hemp]; exact ⟨h1, rfl, h2⟩
      · rw [if_neg hemp]
        have hstep2 : (copyStepState imageSize terminalWidth s sched samples).blocks.flatten
            = s.blocks.flatten ++ s.srcRem.take (copyAmt imageSize s sched) := by
          simp [copyStepState]
        have h1' : (copyStepState imageSize terminalWidth s sched samples).bytesWritten
            = (copyStepState imageSize terminalWidth s sched samples).blocks.flatten.length := by
          rw [hstep2]
          simp [copyStepState, h1]
        have h2' : (copyStepState imageSize terminalWidth s sched samples).bytesWritten
            ≤ imageSize := by
          have hta : (s.srcRem.take (copyAmt imageSize s sched)).length
              ≤ copyAmt imageSize s sched := List.length_take_le _ _
          have hamt := copyAmt_le imageSize s sched
          show s.bytesWritten + (s.srcRem.take (copyAmt imageSize s sched)).length ≤ imageSize
          omega
        obtain ⟨g1, g2, g3⟩ := ih (copyStepState imageSize terminalWidth s sched samples)
          sched.tail samples.tail h1' h2'
        refine ⟨g1, ?_, g3⟩
        rw [g2, hstep2]
        show (s.blocks.flatten ++ s.srcRem.take (copyAmt imageSize s sched))
            ++ s.srcRem.drop (copyAmt imageSize s sched) = s.blocks.flatten ++ s.srcRem
        rw [List.append_assoc, List.take_append_drop]
    · rw [if_neg hlt]; exact ⟨h1, rfl, h2⟩

/-- Helper: with more fuel than bytes remaining, the loop genuinely
finishes: either every requested byte was written or the source stream
was exhausted (the `break` at flash-sdcard.py:117-118). -/
theorem copyGo_exit (imageSize terminalWidth : Nat) :
    ∀ (fuel : Nat) (s : CopyState) (sched : List Nat) (samples : List (Option Nat)),
      imageSize - s.bytesWritten < fuel →
      (imageSize ≤ (copyGo imageSize terminalWidth fuel s sched samples).bytesWritten
        ∨ (copyGo imageSize terminalWidth fuel s sched samples).srcRem = []) := by
  intro fuel
  induction fuel with
  | zero => intro s sched samples h; exact absurd h (Nat.not_lt_zero _)
  | succ fuel ih =>
    intro s sched samples h
    rw [copyGo]
    by_cases hlt : s.bytesWritten < imageSize
    · rw [if_pos hlt]
      by_cases hemp : (s.srcRem.take (copyAmt imageSize s sched)).isEmpty
      · rw [if_pos hemp]
        exact Or.inr (copy_take_empty imageSize s sched hlt hemp)
      · rw [if_neg hemp]
        apply ih
        have hpos := copy_block_pos imageSize s sched hemp
        show imageSize - (s.bytesWritten + (s.srcRem.take (copyAmt imageSize s sched)).length) < fuel
        omega
    · rw [if_neg hlt]; left; omega

/-- Helper: for a source stream holding exactly `image_size` bytes, the
copy loop writes the whole stream and the counter reaches `image_size`. -/
theorem flashCopy_total (imageSize terminalWidth : Nat) (src : List Nat)
    (sched : List Nat) (samples : List (Option Nat)) (hsrc : src.length = imageSize) :
    (flashCopy imageSize terminalWidth src sched samples).blocks.flatten = src
  ∧ (flashCopy imageSize terminalWidth src sched samples).bytesWritten = imageSize := by
  obtain ⟨h1, h2, h3⟩ := copyGo_inv imageSize terminalWidth (imageSize + 1)
    (initCopyState src) sched samples rfl (Nat.zero_le _)
  have hexit := copyGo_exit imageSize terminalWidth (imageSize + 1)
    (initCopyState src) sched samples (by show imageSize - 0 < imageSize + 1; omega)
  rw [flashCopy]
  set r := copyGo imageSize terminalWidth (imageSize + 1) (initCopyState src) sched samples with hr
  have h2' : r.blocks.flatten ++ r.srcRem = src := by
    have hinit : (initCopyState src).blocks.flatten ++ (initCopyState src).srcRem = src := by
      simp [initCopyState]
    rw [← hinit]; exact h2
  rcases hexit with hge | hnil
  · have hlen := congrArg List.length h2'
    rw [List.length_append] at hlen
    have hz : r.srcRem.length = 0 := by omega
    rw [List.length_eq_zero.mp hz, List.append_nil] at h2'
    exact ⟨h2', by omega⟩
  · rw [hnil, List.append_nil] at h2'
    refine ⟨h2', ?_⟩
    rw [h1, h2', hsrc]

/-- Helper: a prefix sum never exceeds the full sum. -/
theorem sum_take_le_sum (t : List Nat) (k : Nat) : (t.take k).sum ≤ t.sum := by
  conv_rhs => rw [← List.take_append_drop k t]
  rw [List.sum_append]
  exact Nat.le_add_right _ _

/-- Helper: prefix sums of a list of naturals are monotone. -/
theorem sum_take_mono (t : List Nat) {j k : Nat} (h : j ≤ k) :
    (t.take j).sum ≤ (t.take k).sum := by
  have heq : t.take j = (t.take k).take j := by
    rw [List.take_take, Nat.min_eq_left h]
  rw [heq]
  exact sum_take_le_sum _ _

/-- C2: for a source holding exactly `image_size` bytes, the copy loop
writes exactly the source's bytes, in order, in 8 KiB blocks, for every
size and for every short-read schedule (a read returning fewer bytes
than requested while the stream is not exhausted is continued past, the
loop simply reading again — never silently truncating)
(flash-sdcard.py:108-176). -/
theorem byte_copier_copies_exactly (imageSize terminalWidth : Nat) (src : List Nat)
    (sched : List Nat) (samples : List (Option Nat)) (hsrc : src.length = imageSize) :
    (flashCopy imageSize terminalWidth src sched samples).blocks.flatten = src
  ∧ (flashCopy imageSize terminalWidth src sched samples).bytesWritten = imageSize
  ∧ blockSize = 8 * 1024 :=
  ⟨(flashCopy_total imageSize terminalWidth src sched samples hsrc).1,
   (flashCopy_total imageSize terminalWidth src sched samples hsrc).2, rfl⟩

/-- Witness for `byte_copier_copies_exactly`: a 3-byte image copied under
a short-read schedule. -/
theorem byte_copier_copies_exactly_witness :
    (flashCopy 3 80 [10, 20, 30] [1] []).blocks.flatten = [10, 20, 30]
  ∧ (flashCopy 3 80 [10, 20, 30] [1] []).bytesWritten = 3
  ∧ blockSize = 8 * 1024 :=
  byte_copier_copies_exactly 3 80 [10, 20, 30] [1] [] (by decide)

/-- C8: across the iterations of the copy loop the running counter
`bytes_written` — the sum of the first `k` block sizes after `k`
iterations — is monotonically non-decreasing and never exceeds
`image_size`, for every source, schedule and sample pattern
(flash-sdcard.py:112-123). -/
theorem bytes_written_monotone_bounded (imageSize terminalWidth : Nat)
    (src sched : List Nat) (samples : List (Option Nat)) (j k : Nat) (hjk : j ≤ k) :
    ((((flashCopy imageSize terminalWidth src sched samples).blocks.map List.length).take j).sum
        ≤ (((flashCopy imageSize terminalWidth src sched samples).blocks.map List.length).take k).sum)
  ∧ (((flashCopy imageSize terminalWidth src sched samples).blocks.map List.length).take k).sum
      ≤ imageSize := by
  obtain ⟨h1, h2, h3⟩ := copyGo_inv imageSize terminalWidth (imageSize + 1)
    (initCopyState src) sched samples rfl (Nat.zero_le _)
  rw [flashCopy]
  set r := copyGo imageSize terminalWidth (imageSize + 1) (initCopyState src) sched samples with hr
  refine ⟨sum_take_mono _ hjk, ?_⟩
  calc ((r.blocks.map List.length).take k).sum
      ≤ (r.blocks.map List.length).sum := sum_take_le_sum _ _
    _ = r.blocks.flatten.length := by rw [List.length_flatten]
    _ = r.bytesWritten := h1.symm
    _ ≤ imageSize := h3

/-- Witness for `bytes_written_monotone_bounded`. -/
theorem bytes_written_monotone_bounded_witness :
    ((((flashCopy 4 80 [9, 9] [] []).blocks.map List.length).take 1).sum
        ≤ (((flashCopy 4 80 [9, 9] [] []).blocks.map List.length).take 2).sum)
  ∧ (((flashCopy 4 80 [9, 9] [] []).blocks.map List.length).take 2).sum ≤ 4 :=
  bytes_written_monotone_bounded 4 80 [9, 9] [] [] 1 2 (by decide)

/-- Helper: if the progress branch never fires, `progress_width` and
`speed_mbs` are still unassigned when the loop ends. -/
theorem copyGo_no_sample (imageSize terminalWidth : Nat) :
    ∀ (fuel : Nat) (s : CopyState) (sched : List Nat) (samples : List (Option Nat)),
      (∀ o ∈ samples, o = none) →
      s.progressWidth = none → s.speedMbs = none →
      ((copyGo imageSize terminalWidth fuel s sched samples).progressWidth = none
        ∧ (copyGo imageSize terminalWidth fuel s sched samples).speedMbs = none) := by
  intro fuel
  induction fuel with
  | zero => intro s sched samples hs h1 h2; exact ⟨h1, h2⟩
  | succ fuel ih =>
    intro s sched samples hs h1 h2
    rw [copyGo]
    by_cases hlt : s.bytesWritten < imageSize
    · rw [if_pos hlt]
      by_cases hemp : (s.srcRem.take (copyAmt imageSize s sched)).isEmpty
      · rw [if_pos hemp]; exact ⟨h1, h2⟩
      · rw [if_neg hemp]
        have hh : samples.head?.getD none = none := by
          cases samples with
          | nil => rfl
          | cons o os => exact hs o (List.mem_cons_self o os)
        apply ih
        · intro o ho; exact hs o (List.mem_of_mem_tail ho)
        · simp [copyStepState, hh, h1]
        · simp [copyStepState, hh, h2]
    · rw [if_neg hlt]; exact ⟨h1, h2⟩

/-- C9: if the copy loop completes without the progress branch ever
firing (no sample rendered, e.g. a copy finishing in under 0.2 s), then
even though every byte has been written, rendering the final 100% frame
reads the never-assigned `progress_width` / `speed_mbs` and the flash
ends in the `NameError` outcome — the unhandled exception that the
top-level handler reports as an unexpected error with a non-zero exit —
instead of success (flash-sdcard.py:131-184, 433-435). -/
theorem fast_copy_name_error (imageSize terminalWidth : Nat) (src sched : List Nat)
    (samples : List (Option Nat)) (hsrc : src.length = imageSize)
    (hs : ∀ o ∈ samples, o = none) :
    flashImage imageSize terminalWidth src sched samples
      = FlashOutcome.nameError (flashCopy imageSize terminalWidth src sched samples)
  ∧ (flashCopy imageSize terminalWidth src sched samples).bytesWritten = imageSize := by
  obtain ⟨hpw, hsp⟩ := copyGo_no_sample imageSize terminalWidth (imageSize + 1)
    (initCopyState src) sched samples hs rfl rfl
  refine ⟨?_, (flashCopy_total imageSize terminalWidth src sched samples hsrc).2⟩
  rw [flashImage, renderFinalFrame]
  have hpw2 : (flashCopy imageSize terminalWidth src sched samples).progressWidth = none := hpw
  rw [hpw2]

/-- Witness for `fast_copy_name_error`: a 1-byte image with no sample. -/
theorem fast_copy_name_error_witness :
    flashImage 1 80 [7] [] [] = FlashOutcome.nameError (flashCopy 1 80 [7] [] [])
  ∧ (flashCopy 1 80 [7] [] []).bytesWritten = 1 :=
  fast_copy_name_error 1 80 [7] [] [] (by decide)
    (fun _ ho => absurd ho (List.not_mem_nil _))

/-- Helper: the chunk size is positive. -/
theorem chunkSize_pos : 0 < chunkSize := by decide

/-- Helper: zero bytes need zero chunks. -/
theorem numChunks_zero : numChunks 0 = 0 := by decide

/-- Helper: a positive byte count needs at least one chunk. -/
theorem numChunks_pos (m : Nat) (hm : 0 < m) : 1 ≤ numChunks m := by
  unfold numChunks
  rw [Nat.le_div_iff_mul_le chunkSize_pos]
  have := chunkSize_pos
  omega

/-- Helper: consuming one chunk (of size `min chunkSize m`) lowers the
chunk count by exactly one. -/
theorem numChunks_step (m : Nat) (hm : 0 < m) :
    numChunks m = numChunks (m - min chunkSize m) + 1 := by
  have hC := chunkSize_pos
  rcases le_or_lt m chunkSize with hle | hgt
  · rw [Nat.min_eq_right hle, Nat.sub_self, numChunks_zero]
    unfold numChunks
    exact Nat.div_eq_of_lt_le (by omega) (by omega)
  · rw [Nat.min_eq_left (le_of_lt hgt)]
    unfold numChunks
    have heq : m + chunkSize - 1 = (m - chunkSize + chunkSize - 1) + chunkSize := by omega
    rw [heq, Nat.add_div_right _ chunkSize_pos]

/-- Helper: dropping one full chunk from both streams shifts the chunk
index by one. -/
theorem chunkMatches_shift (img dev : List Nat) (k : Nat) :
    chunkMatches (img.drop chunkSize) (dev.drop chunkSize) k
      = chunkMatches img dev (k + 1) := by
  unfold chunkMatches
  rw [List.drop_drop, List.drop_drop, Nat.succ_mul,
    Nat.add_comm chunkSize (k * chunkSize)]

/-- Helper: chunk 0 compares the leading `chunkSize` bytes of the two
streams, exactly as one loop iteration does. -/
theorem chunkMatches_zero_iff (img dev : List Nat) :
    chunkMatches img dev 0 = true ↔
      img.take chunkSize = dev.take (img.take chunkSize).length := by
  unfold chunkMatches
  simp

/-- Helper: when `bytes_compared` has reached `image_size` the loop exits
reporting success. -/
theorem verifyStep_exit (n bc cnt : Nat) (img dev : List Nat) (hge : ¬ bc < n) :
    verifyStep n ⟨img, dev, bc, cnt⟩ = Sum.inr (true, cnt) := by
  rw [verifyStep, if_neg hge]

/-- Helper: a mismatching chunk reports failure after one more
comparison. -/
theorem verifyStep_mismatch (n bc cnt : Nat) (img dev : List Nat) (hlt : bc < n)
    (hne : ¬ img.take chunkSize = dev.take (img.take chunkSize).length) :
    verifyStep n ⟨img, dev, bc, cnt⟩ = Sum.inr (false, cnt + 1) := by
  rw [verifyStep, if_pos hlt]
  dsimp only
  rw [if_neg hne]

/-- Helper: a matching chunk advances both streams and the counters. -/
theorem verifyStep_match (n bc cnt : Nat) (img dev : List Nat) (hlt : bc < n)
    (heq : img.take chunkSize = dev.take (img.take chunkSize).length) :
    verifyStep n ⟨img, dev, bc, cnt⟩
      = Sum.inl ⟨img.drop (img.take chunkSize).length,
          dev.drop (img.take chunkSize).length,
          bc + (img.take chunkSize).length, cnt + 1⟩ := by
  rw [verifyStep, if_pos hlt]
  dsimp only
  rw [if_pos heq]

/-- Helper: when every chunk of the remaining `m` image bytes compares
equal, the verification loop terminates successfully after examining all
`numChunks m` chunks. -/
theorem verifyRun_allmatch (n : Nat) :
    ∀ (fuel m : Nat) (img dev : List Nat) (bc cnt : Nat),
      img.length = m → bc + m = n → m < fuel →
      (∀ k, k < numChunks m → chunkMatches img dev k = true) →
      verifyRun n fuel ⟨img, dev, bc, cnt⟩ = some (true, cnt + numChunks m) := by
  intro fuel
  induction fuel with
  | zero => intro m img dev bc cnt _ _ h3 _; exact absurd h3 (Nat.not_lt_zero _)
  | succ fuel ih =>
    intro m img dev bc cnt hlen hbc hfuel hall
    by_cases hm : m = 0
    · subst hm
      rw [verifyRun, verifyStep_exit n bc cnt img dev (by omega), numChunks_zero]
      rfl
    · have hm' : 0 < m := Nat.pos_of_ne_zero hm
      have hlt : bc < n := by omega
      have hcm : chunkMatches img dev 0 = true := hall 0 (numChunks_pos m hm')
      have heq := (chunkMatches_zero_iff img dev).mp hcm
      have hlC : (img.take chunkSize).length = min chunkSize m := by
        rw [List.length_take, hlen]
      rw [verifyRun, verifyStep_match n bc cnt img dev hlt heq, hlC]
      show verifyRun n fuel ⟨img.drop (min chunkSize m), dev.drop (min chunkSize m),
        bc + min chunkSize m, cnt + 1⟩ = some (true, cnt + numChunks m)
      rcases le_or_lt chunkSize m with hCm | hCm
      · have hminC : min chunkSize m = chunkSize := Nat.min_eq_left hCm
        have hbc2 : bc + chunkSize + (m - chunkSize) = n := by omega
        have hfu2 : m - chunkSize < fuel := by
          have := chunkSize_pos
          omega
        have hlen2 : (img.drop chunkSize).length = m - chunkSize := by
          rw [List.length_drop, hlen]
        have hstepn := numChunks_step m hm'
        rw [hminC] at hstepn ⊢
        have hrec := ih (m - chunkSize) (img.drop chunkSize) (dev.drop chunkSize)
          (bc + chunkSize) (cnt + 1) hlen2 hbc2 hfu2
          (by
            intro k hk
            rw [chunkMatches_shift]
            refine hall (k + 1) ?_
            rw [hstepn]
            exact Nat.succ_lt_succ hk)
        rw [hrec, hstepn, Nat.add_assoc, Nat.add_comm 1 (numChunks (m - chunkSize))]
      · have hminC : min chunkSize m = m := Nat.min_eq_right (le_of_lt hCm)
        have hbc2 : bc + m + (m - m) = n := by omega
        have hfu2 : m - m < fuel := by omega
        have hlen2 : (img.drop m).length = m - m := by
          rw [List.length_drop, hlen]
        have hstepn := numChunks_step m hm'
        rw [hminC] at hstepn ⊢
        rw [Nat.sub_self, numChunks_zero] at hstepn
        have hrec := ih (m - m) (img.drop m) (dev.drop m) (bc + m) (cnt + 1)
          hlen2 hbc2 hfu2
          (by intro k hk; rw [Nat.sub_self, numChunks_zero] at hk; omega)
        rw [hrec, Nat.sub_self, numChunks_zero, hstepn]

/-- Helper: when some chunk of the remaining `m` image bytes mismatches,
the verification loop reports failure right after comparing the first
mismatching chunk, examining none beyond it. -/
theorem verifyRun_mismatch (n : Nat) :
    ∀ (fuel m : Nat) (img dev : List Nat) (bc cnt : Nat),
      img.length = m → bc + m = n → m < fuel →
      ∀ (H : ∃ k, k < numChunks m ∧ chunkMatches img dev k = false),
      verifyRun n fuel ⟨img, dev, bc, cnt⟩ = some (false, cnt + (Nat.find H + 1)) := by
  intro fuel
  induction fuel with
  | zero => intro m img dev bc cnt _ _ h3 _; exact absurd h3 (Nat.not_lt_zero _)
  | succ fuel ih =>
    intro m img dev bc cnt hlen hbc hfuel H
    by_cases hm : m = 0
    · exfalso
      obtain ⟨k, hk, _⟩ := H
      subst hm
      rw [numChunks_zero] at hk
      exact absurd hk (Nat.not_lt_zero _)
    · have hm' : 0 < m := Nat.pos_of_ne_zero hm
      have hlt : bc < n := by omega
      by_cases hcm : chunkMatches img dev 0 = true
      · have heq := (chunkMatches_zero_iff img dev).mp hcm
        have hlC : (img.take chunkSize).length = min chunkSize m := by
          rw [List.length_take, hlen]
        rw [verifyRun, verifyStep_match n bc cnt img dev hlt heq, hlC]
        show verifyRun n fuel ⟨img.drop (min chunkSize m), dev.drop (min chunkSize m),
          bc + min chunkSize m, cnt + 1⟩ = some (false, cnt + (Nat.find H + 1))
        rcases le_or_lt chunkSize m with hCm | hCm
        · have hminC : min chunkSize m = chunkSize := Nat.min_eq_left hCm
          have hbc2 : bc + chunkSize + (m - chunkSize) = n := by omega
          have hfu2 : m - chunkSize < fuel := by
            have := chunkSize_pos
            omega
          have hlen2 : (img.drop chunkSize).length = m - chunkSize := by
            rw [List.length_drop, hlen]
          have harith : ∀ x : Nat, cnt + 1 + (x + 1) = cnt + (x + 1 + 1) :=
            fun x => by omega
          have hstepn := numChunks_step m hm'
          rw [hminC] at hstepn ⊢
          have H2 : ∃ k, k < numChunks (m - chunkSize)
              ∧ chunkMatches (img.drop chunkSize) (dev.drop chunkSize) k = false := by
            obtain ⟨k, hk, hbad⟩ := H
            cases k with
            | zero => simp [hcm] at hbad
            | succ i =>
              rw [hstepn] at hk
              exact ⟨i, Nat.lt_of_succ_lt_succ hk,
                by rw [chunkMatches_shift]; exact hbad⟩
          have hrec := ih (m - chunkSize) (img.drop chunkSize) (dev.drop chunkSize)
            (bc + chunkSize) (cnt + 1) hlen2 hbc2 hfu2 H2
          rw [hrec]
          have hfind : Nat.find H = Nat.find H2 + 1 := by
            rw [Nat.find_eq_iff]
            refine ⟨?_, ?_⟩
            · obtain ⟨hk2, hbad2⟩ := Nat.find_spec H2
              refine ⟨?_, ?_⟩
              · rw [hstepn]
                exact Nat.succ_lt_succ hk2
              · rw [← chunkMatches_shift]
                exact hbad2
            · intro j hj
              cases j with
              | zero =>
                rintro ⟨_, hbad⟩
                simp [hcm] at hbad
              | succ i =>
                rintro ⟨hik, hbad⟩
                refine Nat.find_min H2 (Nat.lt_of_succ_lt_succ hj) ⟨?_, ?_⟩
                · rw [hstepn] at hik
                  exact Nat.lt_of_succ_lt_succ hik
                · rw [chunkMatches_shift]
                  exact hbad
          have e1 : cnt + (Nat.find H + 1) = cnt + (Nat.find H2 + 1 + 1) :=
            congrArg (fun z => cnt + (z + 1)) hfind
          exact congrArg (fun z => some (false, z))
            ((harith (Nat.find H2)).trans e1.symm)
        · exfalso
          have hminC : min chunkSize m = m := Nat.min_eq_right (le_of_lt hCm)
          have hstepn := numChunks_step m hm'
          rw [hminC, Nat.sub_self, numChunks_zero] at hstepn
          obtain ⟨k, hk, hbad⟩ := H
          rw [hstepn] at hk
          have hk0 : k = 0 := by omega
          subst hk0
          simp [hcm] at hbad
      · have hcm2 : chunkMatches img dev 0 = false := by
          cases hq : chunkMatches img dev 0 with
          | true => exact absurd hq hcm
          | false => rfl
        have hne : ¬ img.take chunkSize = dev.take (img.take chunkSize).length :=
          fun he => hcm ((chunkMatches_zero_iff img dev).mpr he)
        have hf0 : Nat.find H = 0 := (Nat.find_eq_zero H).mpr ⟨numChunks_pos m hm', hcm2⟩
        rw [verifyRun, verifyStep_mismatch n bc cnt img dev hlt hne, hf0]

/-- C10: if, during verification, the image stream is exhausted before
`bytes_compared` reaches `image_size`, the loop does not terminate: the
empty image chunk and the empty device chunk compare equal, the state is
re-entered with only the comparison count advanced, `bytes_compared`
stops advancing, and no amount of fuel makes the loop return
(flash-sdcard.py:198-204). -/
theorem verifier_stalls_on_short_image (dev : List Nat) (n bc cnt fuel : Nat)
    (h : bc < n) :
    verifyStep n ⟨[], dev, bc, cnt⟩ = Sum.inl ⟨[], dev, bc, cnt + 1⟩
  ∧ verifyRun n fuel ⟨[], dev, bc, cnt⟩ = none := by
  have hstep : ∀ c : Nat, verifyStep n ⟨[], dev, bc, c⟩ = Sum.inl ⟨[], dev, bc, c + 1⟩ := by
    intro c
    rw [verifyStep]
    rw [if_pos h]
    simp
  refine ⟨hstep cnt, ?_⟩
  induction fuel generalizing cnt with
  | zero => rfl
  | succ fuel ih =>
    rw [verifyRun, hstep cnt]
    exact ih (cnt + 1)

/-- Witness for `verifier_stalls_on_short_image`: an exhausted image
stream with 3 bytes still to compare. -/
theorem verifier_stalls_witness :
    (0 < 3)
  ∧ (verifyStep 3 ⟨[], [7], 0, 0⟩ = Sum.inl ⟨[], [7], 0, 1⟩
      ∧ verifyRun 3 9 ⟨[], [7], 0, 0⟩ = none) :=
  ⟨Nat.zero_lt_succ 2, verifier_stalls_on_short_image [7] 3 0 0 9 (by decide)⟩

/-- C4: for an image stream of exactly `image_size` bytes, verification
succeeds iff every 1 MiB chunk compares byte-equal (a device read
returning fewer bytes than the image chunk yields unequal lists, hence a
mismatch), it reports the failure outcome iff some chunk differs, and at
the first mismatching chunk `k` it stops having compared exactly `k + 1`
chunks — none beyond the first mismatch (flash-sdcard.py:195-204). -/
theorem verifier_first_mismatch (img dev : List Nat) (n : Nat) (himg : img.length = n) :
    (verifyImage img dev n = some (true, numChunks n)
        ↔ ∀ k, k < numChunks n → chunkMatches img dev k = true)
  ∧ ((∃ c, verifyImage img dev n = some (false, c))
        ↔ ∃ k, k < numChunks n ∧ chunkMatches img dev k = false)
  ∧ (∀ k, k < numChunks n → chunkMatches img dev k = false →
        (∀ j, j < k → chunkMatches img dev j = true) →
        verifyImage img dev n = some (false, k + 1)) := by
  have hfuel : n < n + 1 := Nat.lt_succ_self n
  have hbc : 0 + n = n := Nat.zero_add n
  refine ⟨⟨?_, ?_⟩, ⟨?_, ?_⟩, ?_⟩
  · intro hrun
    by_contra hnot
    push_neg at hnot
    obtain ⟨k, hk, hbad⟩ := hnot
    have hbad2 : chunkMatches img dev k = false := by
      cases hq : chunkMatches img dev k with
      | true => exact absurd hq hbad
      | false => rfl
    have H : ∃ k, k < numChunks n ∧ chunkMatches img dev k = false := ⟨k, hk, hbad2⟩
    have hmm := verifyRun_mismatch n (n + 1) n img dev 0 0 himg hbc hfuel H
    rw [verifyImage] at hrun
    rw [hmm] at hrun
    injection hrun with h1
    injection h1 with h2 h3
    exact Bool.noConfusion h2
  · intro hall
    have hrun := verifyRun_allmatch n (n + 1) n img dev 0 0 himg hbc hfuel hall
    rw [verifyImage, hrun, Nat.zero_add]
  · rintro ⟨c, hc⟩
    by_contra hnot
    have hall : ∀ k, k < numChunks n → chunkMatches img dev k = true := by
      intro k hk
      cases hq : chunkMatches img dev k with
      | true => rfl
      | false => exact absurd ⟨k, hk, hq⟩ hnot
    have hrun := verifyRun_allmatch n (n + 1) n img dev 0 0 himg hbc hfuel hall
    rw [verifyImage] at hc
    rw [hrun] at hc
    injection hc with h1
    injection h1 with h2 h3
    exact Bool.noConfusion h2
  · intro H
    refine ⟨0 + (Nat.find H + 1), ?_⟩
    rw [verifyImage]
    exact verifyRun_mismatch n (n + 1) n img dev 0 0 himg hbc hfuel H
  · intro k hk hbad hprev
    have H : ∃ j, j < numChunks n ∧ chunkMatches img dev j = false := ⟨k, hk, hbad⟩
    have hfind : Nat.find H = k := by
      rw [Nat.find_eq_iff]
      refine ⟨⟨hk, hbad⟩, ?_⟩
      intro j hj
      rintro ⟨hj2, hbadj⟩
      rw [hprev j hj] at hbadj
      exact Bool.noConfusion hbadj
    have hmm := verifyRun_mismatch n (n + 1) n img dev 0 0 himg hbc hfuel H
    rw [verifyImage, hmm]
    have e1 : 0 + (Nat.find H + 1) = k + 1 :=
      calc 0 + (Nat.find H + 1) = Nat.find H + 1 := Nat.zero_add _
        _ = k + 1 := congrArg (fun z => z + 1) hfind
    exact congrArg (fun z => some (false, z)) e1

/-- Witness for `verifier_first_mismatch`: a 3-byte image whose last byte
differs on the device fails in the first (and only) chunk. -/
theorem verifier_first_mismatch_witness :
    ([1, 2, 3] : List Nat).length = 3
  ∧ verifyImage [1, 2, 3] [1, 2, 9] 3 = some (false, 1) :=
  ⟨by decide, (verifier_first_mismatch [1, 2, 3] [1, 2, 9] 3 (by decide)).2.2 0
      (by decide) (by decide) (fun j hj => absurd hj (Nat.not_lt_zero j))⟩

end FlashSdcard
